import Mathlib

set_option maxRecDepth 100000

/-!
Verification of the muggingface-worker streaming ZIP/torrent pipeline
(`src/index.ts`).  Byte sequences are modelled as `List Nat` (each element a
byte value below 256 by construction of the emitters).  Machine arithmetic
follows the JavaScript source: 32-bit values are represented by naturals
below 2^32, with explicit `% 2^32` truncation where the source relies on
`DataView` / bitwise coercion.
-/

/-- Two little-endian bytes, as written by `DataView.setUint16(..., true)`
(the value is truncated to 16 bits). -/
def le16 (n : Nat) : List Nat := [n % 256, n / 256 % 256]

/-- Four little-endian bytes, as written by `DataView.setUint32(..., true)`
(the value is truncated to 32 bits). -/
def le32 (n : Nat) : List Nat :=
  [n % 256, n / 256 % 256, n / 65536 % 256, n / 16777216 % 256]

/-- ZIP local file header, from `makeLocalHeader` in the source: signature
0x04034b50, version 20, flag 0x0008, then bytes 8..25 all zero (method 0,
time/date 0, CRC/size placeholders 0; the file's `Uint8Array` is
zero-initialised), name length, extra length 0, then the UTF-8 name bytes. -/
def makeLocalHeader (filename : List Nat) : List Nat :=
  le32 0x04034b50 ++ le16 20 ++ le16 0x0008 ++ List.replicate 18 0 ++
    le16 filename.length ++ le16 0 ++ filename

/-- ZIP data descriptor, from `makeDataDescriptor`: CRC-32, compressed size,
uncompressed size, little-endian, no signature. -/
def makeDataDescriptor (crc : Nat) (size : Nat) : List Nat :=
  le32 crc ++ le32 size ++ le32 size

/-- ZIP central directory entry, from `makeCentralDirectoryEntryBytes`. -/
def makeCentralDirectoryEntryBytes (filename : List Nat) (crc : Nat)
    (compressedSize : Nat) (uncompressedSize : Nat) (localHeaderOffset : Nat)
    (fileComment : List Nat) : List Nat :=
  le32 0x02014b50 ++ le16 20 ++ le16 20 ++ le16 0x0008 ++ le16 0 ++ le16 0 ++
    le16 0 ++ le32 crc ++ le32 compressedSize ++ le32 uncompressedSize ++
    le16 filename.length ++ le16 0 ++ le16 fileComment.length ++ le16 0 ++
    le16 0 ++ le32 0 ++ le32 localHeaderOffset ++ filename ++ fileComment

/-- ZIP end-of-central-directory record, from `makeEOCDBytes`. -/
def makeEOCDBytes (cdSize : Nat) (cdOffset : Nat) (numEntries : Nat)
    (zipComment : List Nat) : List Nat :=
  le32 0x06054b50 ++ le16 0 ++ le16 0 ++ le16 numEntries ++ le16 numEntries ++
    le32 cdSize ++ le32 cdOffset ++ le16 zipComment.length ++ zipComment

/-- One step of the CRC table construction: the loop body
`c = (c & 1) ? (0xEDB88320 ^ (c >>> 1)) : (c >>> 1)` from `crc32`. -/
def crcTableStep (c : Nat) : Nat :=
  if c % 2 = 1 then 0xEDB88320 ^^^ (c / 2) else c / 2

/-- Entry `i` of the CRC table: eight applications of `crcTableStep`. -/
def crcTable (i : Nat) : Nat :=
  crcTableStep (crcTableStep (crcTableStep (crcTableStep
    (crcTableStep (crcTableStep (crcTableStep (crcTableStep i)))))))

/-- Incremental IEEE CRC-32 from the source's `crc32(data, crc)`: the register
is XORed with -1 (i.e. 0xFFFFFFFF at 32 bits) before and after folding
`crc = (crc >>> 8) ^ table[(crc ^ data[i]) & 0xFF]` over the bytes; the
final `>>> 0` keeps the unsigned 32-bit value. -/
def crc32 (data : List Nat) (crc : Nat) : Nat :=
  (data.foldl (fun c b => (c / 256) ^^^ crcTable ((c ^^^ b) % 256))
    (crc ^^^ 0xFFFFFFFF)) ^^^ 0xFFFFFFFF

/-- Left rotation of a 32-bit value, used by SHA-1. -/
def rotl32 (n : Nat) (x : Nat) : Nat :=
  ((x <<< n) ||| (x >>> (32 - n))) % 4294967296

/-- Big-endian 4-byte encoding of a 32-bit value. -/
def be32 (v : Nat) : List Nat :=
  [v / 16777216 % 256, v / 65536 % 256, v / 256 % 256, v % 256]

/-- Big-endian 8-byte encoding, for the SHA-1 length field. -/
def be64 (v : Nat) : List Nat :=
  [v / 72057594037927936 % 256, v / 281474976710656 % 256,
   v / 1099511627776 % 256, v / 4294967296 % 256,
   v / 16777216 % 256, v / 65536 % 256, v / 256 % 256, v % 256]

/-- SHA-1 message padding: 0x80, zeros to 56 mod 64, then the bit length. -/
def sha1Pad (msg : List Nat) : List Nat :=
  msg ++ [128] ++ List.replicate ((64 + 55 - msg.length % 64) % 64) 0 ++
    be64 (8 * msg.length)

/-- Split a byte list into 64-byte blocks (fuel-driven; the fuel is always
instantiated with the list length, which bounds the number of blocks). -/
def chunk64 : Nat → List Nat → List (List Nat)
  | 0, _ => []
  | _ + 1, [] => []
  | fuel + 1, l => l.take 64 :: chunk64 fuel (l.drop 64)

/-- Sixteen big-endian 32-bit words of a 64-byte block. -/
def toWords : Nat → List Nat → List Nat
  | 0, _ => []
  | fuel + 1, b0 :: b1 :: b2 :: b3 :: rest =>
      (b0 * 16777216 + b1 * 65536 + b2 * 256 + b3) :: toWords fuel rest
  | _ + 1, _ => []

/-- Extend the 16-word schedule to 80 words:
w[t] = rotl1(w[t-3] xor w[t-8] xor w[t-14] xor w[t-16]). -/
def extendWords : Nat → List Nat → List Nat
  | 0, w => w
  | k + 1, w =>
      extendWords k (w ++ [rotl32 1 ((w.getD (w.length - 3) 0) ^^^
        (w.getD (w.length - 8) 0) ^^^ (w.getD (w.length - 14) 0) ^^^
        (w.getD (w.length - 16) 0))])

/-- The SHA-1 round function for round `t`. -/
def sha1F (t : Nat) (b : Nat) (c : Nat) (d : Nat) : Nat :=
  if t < 20 then (b &&& c) ||| ((b ^^^ 4294967295) &&& d)
  else if t < 40 then b ^^^ c ^^^ d
  else if t < 60 then (b &&& c) ||| (b &&& d) ||| (c &&& d)
  else b ^^^ c ^^^ d

/-- The SHA-1 round constant for round `t`. -/
def sha1K (t : Nat) : Nat :=
  if t < 20 then 0x5A827999
  else if t < 40 then 0x6ED9EBA1
  else if t < 60 then 0x8F1BBCDC
  else 0xCA62C1D6

/-- One SHA-1 compression round; the accumulator carries the round index and
the five working registers. -/
def sha1Round (acc : Nat × Nat × Nat × Nat × Nat × Nat) (wt : Nat) :
    Nat × Nat × Nat × Nat × Nat × Nat :=
  let t := acc.1
  let a := acc.2.1
  let b := acc.2.2.1
  let c := acc.2.2.2.1
  let d := acc.2.2.2.2.1
  let e := acc.2.2.2.2.2
  let temp := (rotl32 5 a + sha1F t b c d + e + sha1K t + wt) % 4294967296
  (t + 1, temp, a, rotl32 30 b, c, d)

/-- SHA-1 compression of a single 64-byte block into the running state. -/
def sha1Block (h : Nat × Nat × Nat × Nat × Nat) (block : List Nat) :
    Nat × Nat × Nat × Nat × Nat :=
  let w := extendWords 64 (toWords 16 block)
  let r := w.foldl sha1Round (0, h.1, h.2.1, h.2.2.1, h.2.2.2.1, h.2.2.2.2)
  ((h.1 + r.2.1) % 4294967296, (h.2.1 + r.2.2.1) % 4294967296,
   (h.2.2.1 + r.2.2.2.1) % 4294967296, (h.2.2.2.1 + r.2.2.2.2.1) % 4294967296,
   (h.2.2.2.2 + r.2.2.2.2.2) % 4294967296)

/-- SHA-1 of a byte list, producing the 20 digest bytes.  This models the
`crypto.subtle.digest('SHA-1', data)` call in the source's `sha1` helper. -/
def sha1Bytes (msg : List Nat) : List Nat :=
  let padded := sha1Pad msg
  let h := (chunk64 padded.length padded).foldl sha1Block
    (0x67452301, 0xEFCDAB89, 0x98BADCFE, 0x10325476, 0xC3D2E1F0)
  be32 h.1 ++ be32 h.2.1 ++ be32 h.2.2.1 ++ be32 h.2.2.2.1 ++ be32 h.2.2.2.2

/-- Known-answer check: CRC-32 of "hi" is 0xD8932AAC (used in the spec's
end-to-end scenario). -/
theorem crc32_known_hi : crc32 [104, 105] 0 = 0xD8932AAC := by decide

/-- Known-answer check: CRC-32 of "123456789" is the standard 0xCBF43926. -/
theorem crc32_known_check :
    crc32 [49, 50, 51, 52, 53, 54, 55, 56, 57] 0 = 0xCBF43926 := by decide

/-- The SHA-1 digest of the empty input, byte by byte
(da39a3ee5e6b4b0d3255bfef95601890afd80709). -/
def sha1EmptyDigest : List Nat :=
  [0xda, 0x39, 0xa3, 0xee, 0x5e, 0x6b, 0x4b, 0x0d, 0x32, 0x55,
   0xbf, 0xef, 0x95, 0x60, 0x18, 0x90, 0xaf, 0xd8, 0x07, 0x09]

/-- Known-answer check: SHA-1 of the empty input. -/
theorem sha1_known_empty : sha1Bytes [] = sha1EmptyDigest := by decide

/-- Known-answer check: SHA-1 of "abc" is a9993e364706816aba3e25717850c26c9cd0d89d. -/
theorem sha1_known_abc :
    sha1Bytes [97, 98, 99] =
      [0xa9, 0x99, 0x3e, 0x36, 0x47, 0x06, 0x81, 0x6a, 0xba, 0x3e,
       0x25, 0x71, 0x78, 0x50, 0xc2, 0x6c, 0x9c, 0xd0, 0xd8, 0x9d] := by decide

/-- The worker's torrent piece length constant (1 MiB). -/
def TORRENT_PIECE_LENGTH : Nat := 1048576

/-- The worker's multipart part size constant (60 MiB). -/
def R2_PART_SIZE_LIMIT : Nat := 60 * 1024 * 1024

/-- A finalized central-directory entry, as pushed onto
`centralDirectoryEntries` in the per-file loop. -/
structure CDEntry where
  filename : List Nat
  crc : Nat
  uncompressedSize : Nat
  compressedSize : Nat
  localHeaderOffset : Nat
deriving DecidableEq, Repr

/-- The per-request mutable state of the pipeline: the archive offset, the
multipart sink state, and the torrent hasher state, mirroring the local
variables of the worker's `fetch` handler. -/
structure PipeState where
  currentGlobalOffset : Nat
  r2UploadBuffer : List (List Nat)
  r2UploadBufferSize : Nat
  r2PartIndex : Nat
  uploadedParts : List (Nat × List Nat)
  pieceHashes : List (List Nat)
  torrentPieceBufferArrays : List (List Nat)
  torrentPieceBufferCurrentSize : Nat
  totalZipSizeForTorrent : Nat
  centralDirectoryEntries : List CDEntry
deriving Repr

/-- The initial state of a request (all counters zero, part index 1). -/
def initState : PipeState :=
  { currentGlobalOffset := 0
    r2UploadBuffer := []
    r2UploadBufferSize := 0
    r2PartIndex := 1
    uploadedParts := []
    pieceHashes := []
    torrentPieceBufferArrays := []
    torrentPieceBufferCurrentSize := 0
    totalZipSizeForTorrent := 0
    centralDirectoryEntries := [] }

/-- The `while (torrentPieceBufferCurrentSize >= TORRENT_PIECE_LENGTH)` loop
of `feedDataToTorrentHasher`: consolidate the buffer, hash a full piece,
keep the remainder.  The loop is expressed with a fuel argument (always
instantiated with the buffered byte count, which bounds the iteration count
since every iteration removes `TORRENT_PIECE_LENGTH` bytes); the loop guard
tests the tracked size exactly as the source does. -/
def torrentDrain : Nat → Nat → List (List Nat) → List (List Nat) →
    List (List Nat) × List (List Nat) × Nat
  | 0, sz, hashes, arrays => (hashes, arrays, sz)
  | fuel + 1, sz, hashes, arrays =>
    if TORRENT_PIECE_LENGTH ≤ sz then
      let consolidatedBuffer := List.flatten arrays
      let pieceData := consolidatedBuffer.take TORRENT_PIECE_LENGTH
      let remainder := consolidatedBuffer.drop TORRENT_PIECE_LENGTH
      torrentDrain fuel remainder.length (hashes ++ [sha1Bytes pieceData])
        (if remainder = [] then [] else [remainder])
    else (hashes, arrays, sz)

/-- `feedDataToTorrentHasher(data)`: empty chunks return immediately;
otherwise the chunk is appended to the piece buffer, the size counters are
advanced, and full pieces are hashed off the front of the buffer. -/
def feedDataToTorrentHasher (data : List Nat) (s : PipeState) : PipeState :=
  if data = [] then s
  else
    let arrays := s.torrentPieceBufferArrays ++ [data]
    let size := s.torrentPieceBufferCurrentSize + data.length
    let r := torrentDrain size size s.pieceHashes arrays
    { s with
      pieceHashes := r.1
      torrentPieceBufferArrays := r.2.1
      torrentPieceBufferCurrentSize := r.2.2
      totalZipSizeForTorrent := s.totalZipSizeForTorrent + data.length }

/-- The `while (r2UploadBufferSize >= R2_PART_SIZE_LIMIT)` loop of
`addDataToR2Stream`: slice a full part off the buffer, upload it as the next
part number, keep the remainder.  Fuel-driven like `torrentDrain`. -/
def r2Drain : Nat → Nat → Nat → List (Nat × List Nat) → List (List Nat) →
    Nat × List (Nat × List Nat) × List (List Nat) × Nat
  | 0, sz, idx, parts, buf => (idx, parts, buf, sz)
  | fuel + 1, sz, idx, parts, buf =>
    if R2_PART_SIZE_LIMIT ≤ sz then
      let combined := List.flatten buf
      let chunkToUpload := combined.take R2_PART_SIZE_LIMIT
      let remainder := combined.drop R2_PART_SIZE_LIMIT
      r2Drain fuel remainder.length (idx + 1) (parts ++ [(idx, chunkToUpload)])
        (if remainder = [] then [] else [remainder])
    else (idx, parts, buf, sz)

/-- `addDataToR2Stream(data)`: empty chunks return immediately; otherwise the
chunk is buffered, the archive offset `currentGlobalOffset` advances by its
length, and full 60 MiB parts are uploaded off the front of the buffer. -/
def addDataToR2Stream (data : List Nat) (s : PipeState) : PipeState :=
  if data = [] then s
  else
    let buf := s.r2UploadBuffer ++ [data]
    let size := s.r2UploadBufferSize + data.length
    let r := r2Drain size size s.r2PartIndex s.uploadedParts buf
    { s with
      currentGlobalOffset := s.currentGlobalOffset + data.length
      r2PartIndex := r.1
      uploadedParts := r.2.1
      r2UploadBuffer := r.2.2.1
      r2UploadBufferSize := r.2.2.2 }

/-- `flushRemainingR2Stream()`: if the buffer is non-empty its concatenation
is returned and the buffer is cleared; otherwise the empty array is
returned. -/
def flushRemainingR2Stream (s : PipeState) : List Nat × PipeState :=
  if s.r2UploadBufferSize > 0 then
    (List.flatten s.r2UploadBuffer,
      { s with r2UploadBuffer := [], r2UploadBufferSize := 0 })
  else ([], s)

/-- One source file as seen by the per-file loop: its repository path, whether
the body fetch succeeded (`upstream.ok && upstream.body`), and the body's
chunk sequence. -/
structure FileInput where
  path : List Nat
  fetchOk : Bool
  body : List (List Nat)

/-- Split a byte list on a separator byte, mirroring JavaScript
`String.prototype.split` (an empty input yields one empty segment). -/
def splitOnByte (sep : Nat) : List Nat → List (List Nat)
  | [] => [[]]
  | c :: rest =>
    match splitOnByte sep rest with
    | [] => [[c]]
    | seg :: segs =>
      if c = sep then [] :: seg :: segs else (c :: seg) :: segs

/-- The body of the `for await (const chunk of upstream.body)` loop: update
the running CRC and raw length, then emit the chunk through the tee (sink
first, then hasher); the accumulator is (state, currentFileCrc,
currentFileRawLen). -/
def streamChunk (acc : PipeState × Nat × Nat) (chunk : List Nat) :
    PipeState × Nat × Nat :=
  (feedDataToTorrentHasher chunk (addDataToR2Stream chunk acc.1),
   crc32 chunk acc.2.1, acc.2.2 + chunk.length)

/-- The body of the per-file loop (`for (const path of filePaths)`): record
the header offset, emit the local header through the tee, then — only if the
body fetch succeeded — stream the body chunks (updating CRC and size), emit
the data descriptor, and push the central-directory entry.  On fetch failure
the loop `continue`s after the header was already emitted. -/
def processFile (s : PipeState) (f : FileInput) : PipeState :=
  let filenameForZip := (splitOnByte 47 f.path).getLastD []
  let localHeaderFileOffset := s.currentGlobalOffset
  let localFileHeaderBytes := makeLocalHeader filenameForZip
  let s := addDataToR2Stream localFileHeaderBytes s
  let s := feedDataToTorrentHasher localFileHeaderBytes s
  if !f.fetchOk then s
  else
    let streamed := f.body.foldl streamChunk (s, 0, 0)
    let s := streamed.1
    let currentFileCrc := streamed.2.1
    let currentFileRawLen := streamed.2.2
    let dataDescriptorBytes := makeDataDescriptor currentFileCrc currentFileRawLen
    let s := addDataToR2Stream dataDescriptorBytes s
    let s := feedDataToTorrentHasher dataDescriptorBytes s
    { s with centralDirectoryEntries := s.centralDirectoryEntries ++
        [{ filename := filenameForZip
           crc := currentFileCrc
           uncompressedSize := currentFileRawLen
           compressedSize := currentFileRawLen
           localHeaderOffset := localHeaderFileOffset }] }

/-- The zip tail built after the loop: every central-directory entry
serialized in order (`fullCentralDirectory`), followed by the EOCD record,
whose offset field is the archive offset at tail-construction time. -/
def zipTailOf (s : PipeState) : List Nat :=
  let startOfCentralDirectoryOffset := s.currentGlobalOffset
  let fullCentralDirectory := List.flatten (s.centralDirectoryEntries.map
    (fun entry => makeCentralDirectoryEntryBytes entry.filename entry.crc
      entry.compressedSize entry.uncompressedSize entry.localHeaderOffset []))
  let eocdBytes := makeEOCDBytes fullCentralDirectory.length
    startOfCentralDirectoryOffset s.centralDirectoryEntries.length []
  fullCentralDirectory ++ eocdBytes

/-- The final `if (torrentPieceBufferCurrentSize > 0)` block: hash whatever
is left in the piece buffer as the final (short) piece. -/
def finalizePieces (s : PipeState) : PipeState :=
  if s.torrentPieceBufferCurrentSize > 0 then
    let lastPieceData := List.flatten s.torrentPieceBufferArrays
    if lastPieceData.length > 0 then
      { s with pieceHashes := s.pieceHashes ++ [sha1Bytes lastPieceData] }
    else s
  else s

/-- The pipeline after the per-file loop: flush the sink buffer, re-feed the
flushed bytes to the torrent hasher (line 164 of the source), build the
central directory and EOCD, feed the tail to the hasher, upload the final
part (flushed leftover ++ tail) when non-empty, and hash any pending final
piece.  Returns the final state together with the flushed leftover and the
zip tail.  (The source's `else` branches for an empty final part cannot
change the state: the tail always contains the 22-byte EOCD, so
`finalR2UploadData` is never empty.) -/
def runCore (files : List FileInput) : PipeState × List Nat × List Nat :=
  let s := files.foldl processFile initState
  let flushed := flushRemainingR2Stream s
  let remainingDataFromFilesBuffer := flushed.1
  let s := flushed.2
  let s := feedDataToTorrentHasher remainingDataFromFilesBuffer s
  let zipTail := zipTailOf s
  let s := feedDataToTorrentHasher zipTail s
  let finalR2UploadData := remainingDataFromFilesBuffer ++ zipTail
  let s :=
    if finalR2UploadData.length > 0 then
      { s with
        uploadedParts := s.uploadedParts ++ [(s.r2PartIndex, finalR2UploadData)]
        r2PartIndex := s.r2PartIndex + 1 }
    else s
  let s := finalizePieces s
  (s, remainingDataFromFilesBuffer, zipTail)

/-- The final pipeline state for a request whose file list is `files`. -/
def runPipeline (files : List FileInput) : PipeState := (runCore files).1

/-- The bytes of the stored archive object: the concatenation of all
uploaded multipart parts, in part order. -/
def archiveBytes (s : PipeState) : List Nat :=
  List.flatten (s.uploadedParts.map Prod.snd)

/-- The torrent `info` dictionary built at the end of a request
(`torrentInfoDict` in the source): `length` is `expectedZipSize`, i.e. the
final `totalZipSizeForTorrent`. -/
structure TorrentInfo where
  name : List Nat
  pieceLength : Nat
  pieces : List Nat
  length : Nat

/-- Construction of the torrent `info` dictionary from the final state. -/
def torrentInfoDict (repoNameOnly : List Nat) (s : PipeState) : TorrentInfo :=
  { name := repoNameOnly ++ [46, 122, 105, 112]
    pieceLength := TORRENT_PIECE_LENGTH
    pieces := List.flatten s.pieceHashes
    length := s.totalZipSizeForTorrent }

/-- The source's strict metadata checks before the torrent is written:
`pieceHashes.length === ceil(expectedZipSize / TORRENT_PIECE_LENGTH)` and
`piecesConcat.length === expectedNumPieces * 20`. -/
def piecesCheckOk (s : PipeState) : Bool :=
  let expectedNumPieces :=
    (s.totalZipSizeForTorrent + TORRENT_PIECE_LENGTH - 1) / TORRENT_PIECE_LENGTH
  (s.pieceHashes.length = expectedNumPieces) &&
    ((List.flatten s.pieceHashes).length = expectedNumPieces * 20)

/-- A JavaScript value as far as truthiness testing is concerned, used to
model the catch block's guard `if (mpu && !mpu.complete)`. -/
inductive JSValue where
  | undefinedV
  | nullV
  | functionV
  | objectV
deriving DecidableEq

/-- JavaScript truthiness: `undefined` and `null` are falsy; functions and
objects are truthy. -/
def jsTruthy : JSValue → Bool
  | .undefinedV => false
  | .nullV => false
  | .functionV => true
  | .objectV => true

/-- The `complete` property of the `R2MultipartUpload` object returned by
`createMultipartUpload`: it is the `complete(...)` method, a function. -/
def mpuCompleteProp : JSValue := JSValue.functionV

/-- The guard of the handler's catch block, `if (mpu && !mpu.complete)`:
abort is attempted only when `mpu` exists and its `complete` property is
falsy. -/
def catchBlockAttemptsAbort (mpuPresent : Bool) (completeProp : JSValue) : Bool :=
  mpuPresent && !(jsTruthy completeProp)

/-- The request's repo-parameter handling (lines 21–26 and the two object
keys): split on the separator, reject fewer than two segments with a 400,
otherwise take the first segment as the username, re-join the rest as the
repository name, and form the `.zip` and `.torrent` keys.  Characters are
modelled as bytes; 47 is the code of the path separator. -/
def handleRepoParam (repoParam : List Nat) : Except Nat (List Nat × List Nat) :=
  let repoParts := splitOnByte 47 repoParam
  if repoParts.length < 2 then Except.error 400
  else
    let username := repoParts.headD []
    let repoNameOnly := (repoParts.tail.intersperse [47]).flatten
    Except.ok
      (username ++ [47] ++ repoNameOnly ++ [46, 122, 105, 112],
       username ++ [47] ++ repoNameOnly ++ [46, 116, 111, 114, 114, 101, 110, 116])

/-- XORing twice with the same mask is the identity (the pre/post
conditioning of the CRC register cancels). -/
theorem xor_xor_cancel (x a : Nat) : (x ^^^ a) ^^^ a = x := by
  rw [Nat.xor_assoc, Nat.xor_self, Nat.xor_zero]

/-- Resuming `crc32` from a previous output is the same as running it over
the concatenation: the final XOR of the first run and the initial XOR of the
second cancel, and the fold distributes over append. -/
theorem crc32_append (x : Nat) (a b : List Nat) :
    crc32 b (crc32 a x) = crc32 (a ++ b) x := by
  unfold crc32
  rw [xor_xor_cancel, List.foldl_append]

/-- Folding `crc32` over any chunk list from any starting state equals one
`crc32` pass over the flattened bytes. -/
theorem crc32_foldl_chunks (chunks : List (List Nat)) :
    ∀ x : Nat, chunks.foldl (fun c chunk => crc32 chunk c) x = crc32 chunks.flatten x := by
  induction chunks with
  | nil =>
    intro x
    simp [crc32, xor_xor_cancel]
  | cons c cs ih =>
    intro x
    simp only [List.foldl_cons, List.flatten_cons, ih, crc32_append]

/-- Byte lengths of the little-endian field encoders. -/
theorem length_le16 (n : Nat) : (le16 n).length = 2 := by simp [le16]

/-- Byte length of the 32-bit little-endian encoder. -/
theorem length_le32 (n : Nat) : (le32 n).length = 4 := by simp [le32]

/-- A local header is 30 bytes plus the name. -/
theorem length_makeLocalHeader (fn : List Nat) :
    (makeLocalHeader fn).length = 30 + fn.length := by
  simp [makeLocalHeader, le16, le32]
  omega

/-- A data descriptor is 12 bytes. -/
theorem length_makeDataDescriptor (crc size : Nat) :
    (makeDataDescriptor crc size).length = 12 := by
  simp [makeDataDescriptor, le16, le32]

/-- A central directory entry is 46 bytes plus name and comment. -/
theorem length_makeCentralDirectoryEntryBytes (fn : List Nat) (crc cs us off : Nat)
    (fc : List Nat) :
    (makeCentralDirectoryEntryBytes fn crc cs us off fc).length
      = 46 + fn.length + fc.length := by
  simp [makeCentralDirectoryEntryBytes, le16, le32]
  omega

/-- An EOCD record is 22 bytes plus the archive comment. -/
theorem length_makeEOCDBytes (cdSize cdOffset n : Nat) (zc : List Nat) :
    (makeEOCDBytes cdSize cdOffset n zc).length = 22 + zc.length := by
  simp [makeEOCDBytes, le16, le32]
  omega

/-- A data descriptor is never the empty chunk. -/
theorem makeDataDescriptor_ne_nil (crc size : Nat) : makeDataDescriptor crc size ≠ [] := by
  intro h
  have := length_makeDataDescriptor crc size
  rw [h] at this
  simp at this

/-- A local header is never the empty chunk. -/
theorem makeLocalHeader_ne_nil (fn : List Nat) : makeLocalHeader fn ≠ [] := by
  intro h
  have := length_makeLocalHeader fn
  rw [h] at this
  simp at this
  omega

/-- Feeding the torrent hasher never changes the archive offset. -/
@[simp] theorem feed_currentGlobalOffset (d : List Nat) (s : PipeState) :
    (feedDataToTorrentHasher d s).currentGlobalOffset = s.currentGlobalOffset := by
  unfold feedDataToTorrentHasher
  split <;> rfl

/-- Feeding the torrent hasher never changes the sink buffer. -/
@[simp] theorem feed_r2UploadBuffer (d : List Nat) (s : PipeState) :
    (feedDataToTorrentHasher d s).r2UploadBuffer = s.r2UploadBuffer := by
  unfold feedDataToTorrentHasher
  split <;> rfl

/-- Feeding the torrent hasher never changes the sink buffer size. -/
@[simp] theorem feed_r2UploadBufferSize (d : List Nat) (s : PipeState) :
    (feedDataToTorrentHasher d s).r2UploadBufferSize = s.r2UploadBufferSize := by
  unfold feedDataToTorrentHasher
  split <;> rfl

/-- Feeding the torrent hasher never changes the next part number. -/
@[simp] theorem feed_r2PartIndex (d : List Nat) (s : PipeState) :
    (feedDataToTorrentHasher d s).r2PartIndex = s.r2PartIndex := by
  unfold feedDataToTorrentHasher
  split <;> rfl

/-- Feeding the torrent hasher never changes the uploaded parts. -/
@[simp] theorem feed_uploadedParts (d : List Nat) (s : PipeState) :
    (feedDataToTorrentHasher d s).uploadedParts = s.uploadedParts := by
  unfold feedDataToTorrentHasher
  split <;> rfl

/-- Feeding the torrent hasher never changes the directory entries. -/
@[simp] theorem feed_centralDirectoryEntries (d : List Nat) (s : PipeState) :
    (feedDataToTorrentHasher d s).centralDirectoryEntries = s.centralDirectoryEntries := by
  unfold feedDataToTorrentHasher
  split <;> rfl

/-- Feeding the torrent hasher advances `totalZipSizeForTorrent` by exactly
the chunk length. -/
@[simp] theorem feed_totalZipSizeForTorrent (d : List Nat) (s : PipeState) :
    (feedDataToTorrentHasher d s).totalZipSizeForTorrent
      = s.totalZipSizeForTorrent + d.length := by
  unfold feedDataToTorrentHasher
  split
  case isTrue h => simp [h]
  case isFalse h => rfl

/-- Adding sink data advances the archive offset by exactly the chunk
length. -/
@[simp] theorem addData_currentGlobalOffset (d : List Nat) (s : PipeState) :
    (addDataToR2Stream d s).currentGlobalOffset = s.currentGlobalOffset + d.length := by
  unfold addDataToR2Stream
  split
  case isTrue h => simp [h]
  case isFalse h => rfl

/-- Adding sink data never changes the torrent byte counter. -/
@[simp] theorem addData_totalZipSizeForTorrent (d : List Nat) (s : PipeState) :
    (addDataToR2Stream d s).totalZipSizeForTorrent = s.totalZipSizeForTorrent := by
  unfold addDataToR2Stream
  split <;> rfl

/-- Adding sink data never changes the piece hash list. -/
@[simp] theorem addData_pieceHashes (d : List Nat) (s : PipeState) :
    (addDataToR2Stream d s).pieceHashes = s.pieceHashes := by
  unfold addDataToR2Stream
  split <;> rfl

/-- Adding sink data never changes the directory entries. -/
@[simp] theorem addData_centralDirectoryEntries (d : List Nat) (s : PipeState) :
    (addDataToR2Stream d s).centralDirectoryEntries = s.centralDirectoryEntries := by
  unfold addDataToR2Stream
  split <;> rfl

/-- Total byte count of a list of uploaded parts. -/
def partsLen (ps : List (Nat × List Nat)) : Nat :=
  (ps.map (fun p => p.2.length)).sum

/-- Appending one part adds its length to the total. -/
theorem partsLen_append (ps : List (Nat × List Nat)) (p : Nat × List Nat) :
    partsLen (ps ++ [p]) = partsLen ps + p.2.length := by
  simp [partsLen]

/-- The archive object's byte count is the total of the part lengths. -/
theorem length_flatten_parts (ps : List (Nat × List Nat)) :
    (List.flatten (ps.map Prod.snd)).length = partsLen ps := by
  simp only [List.length_flatten, List.map_map, partsLen]
  rfl

/-- Well-formedness of a sink tuple (part index, uploaded parts, buffer,
tracked size): the next part number extends the contiguous numbering
1..N, every uploaded part is exactly one part-size limit long, and the
tracked size is the byte count of the buffered chunks. -/
def R2Good (r : Nat × List (Nat × List Nat) × List (List Nat) × Nat) : Prop :=
  r.1 = r.2.1.length + 1 ∧
  r.2.1.map Prod.fst = List.range' 1 r.2.1.length ∧
  (∀ p ∈ r.2.1, p.2.length = R2_PART_SIZE_LIMIT) ∧
  r.2.2.2 = (List.flatten r.2.2.1).length

/-- When the tracked size is below the limit the drain loop does not run. -/
theorem r2Drain_noop (fuel sz idx : Nat) (parts : List (Nat × List Nat))
    (buf : List (List Nat)) (h : sz < R2_PART_SIZE_LIMIT) :
    r2Drain fuel sz idx parts buf = (idx, parts, buf, sz) := by
  cases fuel with
  | zero => rfl
  | succ fuel => simp [r2Drain, Nat.not_le.mpr h]

/-- The drain loop preserves sink well-formedness and conserves bytes: what
leaves the buffer enters the parts list, as full parts numbered in order. -/
theorem r2Drain_inv (fuel : Nat) :
    ∀ (sz idx : Nat) (parts : List (Nat × List Nat)) (buf : List (List Nat)),
    R2Good (idx, parts, buf, sz) →
    R2Good (r2Drain fuel sz idx parts buf) ∧
    partsLen (r2Drain fuel sz idx parts buf).2.1 + (r2Drain fuel sz idx parts buf).2.2.2
      = partsLen parts + sz := by
  induction fuel with
  | zero =>
    intro sz idx parts buf h
    exact ⟨h, rfl⟩
  | succ fuel ih =>
    intro sz idx parts buf h
    obtain ⟨hidx, hnum, hsz, hbuf⟩ := h
    dsimp only at hidx hnum hsz hbuf
    rw [r2Drain]
    split
    case isTrue hle =>
      have hflat : (List.flatten buf).length = sz := hbuf.symm
      have htake : ((List.flatten buf).take R2_PART_SIZE_LIMIT).length
          = R2_PART_SIZE_LIMIT := by
        rw [List.length_take, hflat]
        omega
      have hdrop : ((List.flatten buf).drop R2_PART_SIZE_LIMIT).length
          = sz - R2_PART_SIZE_LIMIT := by
        rw [List.length_drop, hflat]
      have hidx2 : idx = 1 + 1 * parts.length := by omega
      have hgood : R2Good (idx + 1, parts ++ [(idx, (List.flatten buf).take R2_PART_SIZE_LIMIT)],
          (if (List.flatten buf).drop R2_PART_SIZE_LIMIT = [] then []
            else [(List.flatten buf).drop R2_PART_SIZE_LIMIT]),
          ((List.flatten buf).drop R2_PART_SIZE_LIMIT).length) := by
        refine ⟨by simp [hidx], ?_, ?_, ?_⟩
        · simp only [List.map_append, List.map_cons, List.map_nil, List.length_append,
          List.length_cons, List.length_nil, List.range'_concat, hnum, hidx2]
        · intro p hp
          rcases List.mem_append.mp hp with hp | hp
          · exact hsz p hp
          · simp only [List.mem_singleton] at hp
            rw [hp]
            exact htake
        · split
          case isTrue hnil => simp [hnil]
          case isFalse hnil => simp
      have hres := ih ((List.flatten buf).drop R2_PART_SIZE_LIMIT).length (idx + 1)
        (parts ++ [(idx, (List.flatten buf).take R2_PART_SIZE_LIMIT)])
        (if (List.flatten buf).drop R2_PART_SIZE_LIMIT = [] then []
          else [(List.flatten buf).drop R2_PART_SIZE_LIMIT]) hgood
      dsimp only
      refine ⟨hres.1, ?_⟩
      rw [hres.2, partsLen_append]
      dsimp only
      rw [htake, hdrop]
      omega
    case isFalse hle =>
      exact ⟨⟨hidx, hnum, hsz, hbuf⟩, rfl⟩

/-- Sink-state well-formedness of a pipeline state, together with the
offset accounting: the archive offset is exactly the bytes already uploaded
plus the bytes still buffered. -/
def StateInv (s : PipeState) : Prop :=
  R2Good (s.r2PartIndex, s.uploadedParts, s.r2UploadBuffer, s.r2UploadBufferSize) ∧
  s.currentGlobalOffset = partsLen s.uploadedParts + s.r2UploadBufferSize

/-- The initial state is well-formed. -/
theorem initState_inv : StateInv initState := by
  refine ⟨⟨rfl, rfl, ?_, rfl⟩, rfl⟩
  intro p hp
  simp [initState] at hp

/-- `addDataToR2Stream` preserves sink well-formedness. -/
theorem addData_inv (d : List Nat) (s : PipeState) (h : StateInv s) :
    StateInv (addDataToR2Stream d s) := by
  obtain ⟨⟨hidx, hnum, hsz, hbuf⟩, hoff⟩ := h
  dsimp only at hidx hnum hsz hbuf
  unfold addDataToR2Stream
  split
  case isTrue => exact ⟨⟨hidx, hnum, hsz, hbuf⟩, hoff⟩
  case isFalse hne =>
    have hflatapp : (List.flatten (s.r2UploadBuffer ++ [d])).length
        = s.r2UploadBufferSize + d.length := by
      rw [List.flatten_append]
      simp only [List.flatten_cons, List.flatten_nil, List.append_nil, List.length_append]
      rw [hbuf]
    have hgood : R2Good (s.r2PartIndex, s.uploadedParts, s.r2UploadBuffer ++ [d],
        s.r2UploadBufferSize + d.length) :=
      ⟨hidx, hnum, hsz, hflatapp.symm⟩
    have hres := r2Drain_inv (s.r2UploadBufferSize + d.length)
      (s.r2UploadBufferSize + d.length) s.r2PartIndex s.uploadedParts
      (s.r2UploadBuffer ++ [d]) hgood
    dsimp only
    refine ⟨hres.1, ?_⟩
    dsimp only
    omega

/-- `feedDataToTorrentHasher` preserves sink well-formedness (it does not
touch any sink field). -/
theorem feed_inv (d : List Nat) (s : PipeState) (h : StateInv s) :
    StateInv (feedDataToTorrentHasher d s) := by
  obtain ⟨⟨hidx, hnum, hsz, hbuf⟩, hoff⟩ := h
  dsimp only at hidx hnum hsz hbuf
  constructor
  · exact ⟨by simp [hidx], by simp [hnum],
      by simp only [feed_uploadedParts]; exact hsz, by simp [hbuf]⟩
  · simp [hoff]

/-- The per-file loop invariant: the sink is well-formed and the torrent
byte counter agrees with the archive offset (every byte emitted so far went
through both halves of the tee exactly once). -/
def LoopInv (s : PipeState) : Prop :=
  StateInv s ∧ s.totalZipSizeForTorrent = s.currentGlobalOffset

/-- A paired tee emission (sink, then hasher) preserves the loop
invariant. -/
theorem teeEmit_loopInv (d : List Nat) (s : PipeState) (h : LoopInv s) :
    LoopInv (feedDataToTorrentHasher d (addDataToR2Stream d s)) := by
  refine ⟨feed_inv _ _ (addData_inv _ _ h.1), ?_⟩
  simp [h.2]

/-- Streaming any list of body chunks preserves the loop invariant. -/
theorem bodyFold_loopInv (chunks : List (List Nat)) :
    ∀ acc : PipeState × Nat × Nat, LoopInv acc.1 →
    LoopInv ((chunks.foldl streamChunk acc).1) := by
  induction chunks with
  | nil => intro acc h; exact h
  | cons c cs ih =>
    intro acc h
    exact ih (streamChunk acc c) (teeEmit_loopInv c acc.1 h)

/-- Replacing the directory entry list does not affect the loop invariant
(it mentions no entry field). -/
theorem loopInv_setEntries (s : PipeState) (es : List CDEntry) (h : LoopInv s) :
    LoopInv { s with centralDirectoryEntries := es } :=
  ⟨⟨h.1.1, h.1.2⟩, h.2⟩

/-- Processing one file of the per-file loop preserves the loop invariant. -/
theorem processFile_loopInv (f : FileInput) (s : PipeState) (h : LoopInv s) :
    LoopInv (processFile s f) := by
  unfold processFile
  dsimp only
  split
  case isTrue => exact teeEmit_loopInv _ _ h
  case isFalse =>
    have h2 := teeEmit_loopInv (makeLocalHeader ((splitOnByte 47 f.path).getLastD [])) s h
    have h3 := bodyFold_loopInv f.body
      (feedDataToTorrentHasher (makeLocalHeader ((splitOnByte 47 f.path).getLastD []))
        (addDataToR2Stream (makeLocalHeader ((splitOnByte 47 f.path).getLastD [])) s), 0, 0) h2
    exact loopInv_setEntries _ _ (teeEmit_loopInv _ _ h3)

/-- The whole per-file loop preserves the loop invariant. -/
theorem foldFiles_loopInv (files : List FileInput) :
    ∀ s : PipeState, LoopInv s → LoopInv (files.foldl processFile s) := by
  induction files with
  | nil => intro s h; exact h
  | cons f fs ih =>
    intro s h
    exact ih (processFile s f) (processFile_loopInv f s h)

/-- The initial state satisfies the loop invariant. -/
theorem initState_loopInv : LoopInv initState := ⟨initState_inv, rfl⟩

/-- The state after the per-file loop satisfies the loop invariant. -/
theorem loopState_loopInv (files : List FileInput) :
    LoopInv (files.foldl processFile initState) :=
  foldFiles_loopInv files initState initState_loopInv

/-- Flushing does not change the uploaded parts. -/
@[simp] theorem flush_uploadedParts (s : PipeState) :
    (flushRemainingR2Stream s).2.uploadedParts = s.uploadedParts := by
  unfold flushRemainingR2Stream
  split <;> rfl

/-- Flushing does not change the next part number. -/
@[simp] theorem flush_r2PartIndex (s : PipeState) :
    (flushRemainingR2Stream s).2.r2PartIndex = s.r2PartIndex := by
  unfold flushRemainingR2Stream
  split <;> rfl

/-- Flushing does not change the archive offset. -/
@[simp] theorem flush_currentGlobalOffset (s : PipeState) :
    (flushRemainingR2Stream s).2.currentGlobalOffset = s.currentGlobalOffset := by
  unfold flushRemainingR2Stream
  split <;> rfl

/-- Flushing does not change the torrent byte counter. -/
@[simp] theorem flush_totalZipSizeForTorrent (s : PipeState) :
    (flushRemainingR2Stream s).2.totalZipSizeForTorrent = s.totalZipSizeForTorrent := by
  unfold flushRemainingR2Stream
  split <;> rfl

/-- Flushing does not change the directory entries. -/
@[simp] theorem flush_centralDirectoryEntries (s : PipeState) :
    (flushRemainingR2Stream s).2.centralDirectoryEntries = s.centralDirectoryEntries := by
  unfold flushRemainingR2Stream
  split <;> rfl

/-- After a flush the tracked buffer size is zero. -/
@[simp] theorem flush_r2UploadBufferSize (s : PipeState) :
    (flushRemainingR2Stream s).2.r2UploadBufferSize = 0 := by
  unfold flushRemainingR2Stream
  split
  case isTrue => rfl
  case isFalse h => simpa using Nat.le_zero.mp (Nat.not_lt.mp h)

/-- For a well-formed state the flushed bytes are exactly the tracked
buffered byte count. -/
theorem flush_fst_length (s : PipeState) (h : StateInv s) :
    ((flushRemainingR2Stream s).1).length = s.r2UploadBufferSize := by
  obtain ⟨⟨_, _, _, hbuf⟩, _⟩ := h
  dsimp only at hbuf
  unfold flushRemainingR2Stream
  split
  case isTrue => exact hbuf.symm
  case isFalse h2 => simpa using (Nat.le_zero.mp (Nat.not_lt.mp h2)).symm

/-- The zip tail always contains at least the 22 EOCD bytes. -/
theorem zipTailOf_length (s : PipeState) : 22 ≤ (zipTailOf s).length := by
  unfold zipTailOf
  dsimp only
  rw [List.length_append, length_makeEOCDBytes]
  simp

/-- Hashing the final short piece does not change the uploaded parts. -/
@[simp] theorem finalizePieces_uploadedParts (s : PipeState) :
    (finalizePieces s).uploadedParts = s.uploadedParts := by
  unfold finalizePieces
  split
  case isTrue =>
    dsimp only
    split <;> rfl
  case isFalse => rfl

/-- Hashing the final short piece does not change the archive offset. -/
@[simp] theorem finalizePieces_currentGlobalOffset (s : PipeState) :
    (finalizePieces s).currentGlobalOffset = s.currentGlobalOffset := by
  unfold finalizePieces
  split
  case isTrue =>
    dsimp only
    split <;> rfl
  case isFalse => rfl

/-- Hashing the final short piece does not change the torrent byte
counter. -/
@[simp] theorem finalizePieces_totalZipSizeForTorrent (s : PipeState) :
    (finalizePieces s).totalZipSizeForTorrent = s.totalZipSizeForTorrent := by
  unfold finalizePieces
  split
  case isTrue =>
    dsimp only
    split <;> rfl
  case isFalse => rfl

/-- End-of-run bookkeeping: the final parts list is the loop's parts plus
one final part (flushed leftover ++ zip tail) numbered with the next part
index; the archive offset is unchanged after the loop; the torrent byte
counter additionally absorbed the re-fed leftover and the tail; the
leftover is the loop's buffered byte count; and the tail is at least the
22 EOCD bytes. -/
theorem runCore_spec (files : List FileInput) :
    (runCore files).1.uploadedParts
      = (files.foldl processFile initState).uploadedParts
        ++ [((files.foldl processFile initState).r2PartIndex,
             (runCore files).2.1 ++ (runCore files).2.2)] ∧
    (runCore files).1.currentGlobalOffset
      = (files.foldl processFile initState).currentGlobalOffset ∧
    (runCore files).1.totalZipSizeForTorrent
      = (files.foldl processFile initState).totalZipSizeForTorrent
        + (runCore files).2.1.length + (runCore files).2.2.length ∧
    (runCore files).2.1.length
      = (files.foldl processFile initState).r2UploadBufferSize ∧
    22 ≤ (runCore files).2.2.length := by
  have hinv := (loopState_loopInv files).1
  unfold runCore
  dsimp only
  have h22 := zipTailOf_length (feedDataToTorrentHasher
    (flushRemainingR2Stream (List.foldl processFile initState files)).1
    (flushRemainingR2Stream (List.foldl processFile initState files)).2)
  have hpos : ((flushRemainingR2Stream (List.foldl processFile initState files)).1
      ++ zipTailOf (feedDataToTorrentHasher
        (flushRemainingR2Stream (List.foldl processFile initState files)).1
        (flushRemainingR2Stream (List.foldl processFile initState files)).2)).length > 0 := by
    rw [List.length_append]
    omega
  rw [if_pos hpos]
  refine ⟨by simp, by simp, by simp, ?_, h22⟩
  exact flush_fst_length _ hinv

/-- While the archive offset is still below one part size, nothing has been
uploaded: the parts list is empty, the next part number is still 1, and the
whole archive so far sits in the buffer. -/
theorem no_parts_when_small (s : PipeState) (h : StateInv s)
    (hsmall : s.currentGlobalOffset < R2_PART_SIZE_LIMIT) :
    s.uploadedParts = [] ∧ s.r2PartIndex = 1 ∧
    s.r2UploadBufferSize = s.currentGlobalOffset := by
  obtain ⟨⟨hidx, hnum, hsz, hbuf⟩, hoff⟩ := h
  dsimp only at hidx hnum hsz hbuf
  cases hp : s.uploadedParts with
  | nil =>
    rw [hp] at hoff hidx
    simp [partsLen] at hoff
    exact ⟨rfl, by simp [hidx], by omega⟩
  | cons p rest =>
    exfalso
    have hpl : p.2.length = R2_PART_SIZE_LIMIT :=
      hsz p (by rw [hp]; exact List.mem_cons_self p rest)
    have hge : R2_PART_SIZE_LIMIT ≤ partsLen s.uploadedParts := by
      rw [hp]
      simp [partsLen, hpl]
    omega

/-- The file name used throughout the concrete scenarios: "a.txt". -/
def nmATxt : List Nat := [97, 46, 116, 120, 116]

/-- A repository with exactly one file whose body is empty. -/
def oneEmptyFileInput : List FileInput :=
  [{ path := nmATxt, fetchOk := true, body := [] }]

/-- A repository with exactly one file whose body fetch fails. -/
def oneFailedFileInput : List FileInput :=
  [{ path := nmATxt, fetchOk := false, body := [] }]

/-- A single 62914512-byte body (62914512 + 35 + 12 = 60 MiB − 1, so the
whole archive body stays one byte under the part limit and is flushed as
leftover). -/
def bigBody : List Nat := List.replicate 62914512 0

/-- A repository with one file whose size makes the final multipart part
(leftover ++ central directory ++ EOCD) exceed the configured part size. -/
def bigFileInput : List FileInput :=
  [{ path := nmATxt, fetchOk := true, body := [bigBody] }]


/-- The per-file loop sees "a.txt" (no separator) as its own zip name. -/
theorem nmATxt_lastSegment : (splitOnByte 47 nmATxt).getLastD [] = nmATxt := by decide

/-- The flushed leftover of a run is the flush of the loop state. -/
theorem runCore_rem (files : List FileInput) :
    (runCore files).2.1 = (flushRemainingR2Stream (files.foldl processFile initState)).1 := rfl

/-- The zip tail of a run is built from the state after the leftover
re-feed. -/
theorem runCore_tail (files : List FileInput) :
    (runCore files).2.2 = zipTailOf (feedDataToTorrentHasher
      (flushRemainingR2Stream (files.foldl processFile initState)).1
      (flushRemainingR2Stream (files.foldl processFile initState)).2) := rfl

/-- For a repository with a single file named "a.txt" whose body is one
chunk of 62914512 bytes, the pipeline uploads exactly one part, of
62914632 bytes: 35 header + 62914512 body + 12 descriptor = 62914559
(one byte below the limit, so never sliced), plus the 73-byte tail. -/
theorem oversize_general (body : List Nat) (hlen : body.length = 62914512) :
    ((runPipeline [{ path := nmATxt, fetchOk := true, body := [body] }]).uploadedParts.map
      (fun p => p.2.length)) = [62914632] := by
  have hoff : (([{ path := nmATxt, fetchOk := true, body := [body] }] :
      List FileInput).foldl processFile initState).currentGlobalOffset = 62914559 := by
    simp only [List.foldl_cons, List.foldl_nil]
    unfold processFile
    dsimp only
    rw [nmATxt_lastSegment]
    simp only [List.foldl_cons, List.foldl_nil]
    dsimp only [streamChunk]
    simp only [feed_currentGlobalOffset, addData_currentGlobalOffset,
      length_makeLocalHeader, length_makeDataDescriptor, hlen]
    norm_num [initState, nmATxt]
  have hentries : (([{ path := nmATxt, fetchOk := true, body := [body] }] :
      List FileInput).foldl processFile initState).centralDirectoryEntries
      = [{ filename := nmATxt
           crc := crc32 body 0
           uncompressedSize := body.length
           compressedSize := body.length
           localHeaderOffset := 0 }] := by
    simp only [List.foldl_cons, List.foldl_nil]
    unfold processFile
    dsimp only
    rw [nmATxt_lastSegment]
    simp only [List.foldl_cons, List.foldl_nil]
    dsimp only [streamChunk]
    simp only [feed_centralDirectoryEntries, addData_centralDirectoryEntries]
    simp [initState]
  have hloop := loopState_loopInv [{ path := nmATxt, fetchOk := true, body := [body] }]
  have hsmall := no_parts_when_small _ hloop.1 (by rw [hoff]; norm_num [R2_PART_SIZE_LIMIT])
  obtain ⟨hparts0, hidx0, hsize0⟩ := hsmall
  obtain ⟨hparts, hoff2, htot, hrem, h22⟩ :=
    runCore_spec [{ path := nmATxt, fetchOk := true, body := [body] }]
  have htail_len : (runCore [{ path := nmATxt, fetchOk := true, body := [body] }]).2.2.length
      = 73 := by
    rw [runCore_tail]
    unfold zipTailOf
    dsimp only
    rw [List.length_append, length_makeEOCDBytes]
    simp only [feed_centralDirectoryEntries, flush_centralDirectoryEntries, hentries]
    simp only [List.map_cons, List.map_nil, List.flatten_cons, List.flatten_nil,
      List.append_nil]
    rw [length_makeCentralDirectoryEntryBytes]
    norm_num [nmATxt]
  have hrem_len : (runCore [{ path := nmATxt, fetchOk := true, body := [body] }]).2.1.length
      = 62914559 := by
    rw [hrem, hsize0, hoff]
  unfold runPipeline
  rw [hparts, hparts0, List.nil_append, List.map_cons, List.map_nil]
  dsimp only
  rw [List.length_append, hrem_len, htail_len]

/-- The large body has the intended length (proved by rewriting; the
62914512-element list itself is never evaluated). -/
theorem bigBody_length : bigBody.length = 62914512 := by
  rw [show bigBody = List.replicate 62914512 0 from rfl, List.length_replicate]

/-- C1: the claim says a file whose body fetch fails is skipped with no
local header emitted and the archive offset A unchanged.  The code emits
the header before checking fetch success: for a one-file repository whose
fetch fails, A ends the loop at 35 (the header length), no directory entry
exists, and the stored archive is the orphan local header followed by an
EOCD claiming zero entries. -/
theorem c1_failed_fetch_leaves_orphan_header :
    (runPipeline oneFailedFileInput).currentGlobalOffset = 35 ∧
    (runPipeline oneFailedFileInput).centralDirectoryEntries = [] ∧
    archiveBytes (runPipeline oneFailedFileInput)
      = makeLocalHeader nmATxt ++ makeEOCDBytes 0 35 0 [] := by decide

/-- C2 counterexample: for the one-empty-file repository the final state has
A = 47 but `totalZipSizeForTorrent` = 167 (the 47 pre-tail bytes were
re-fed after the flush, and the 73-byte tail reached only the hasher), so
the claimed equality fails at the end of the pipeline. -/
theorem c2_counterexample :
    (runPipeline oneEmptyFileInput).totalZipSizeForTorrent = 167 ∧
    (runPipeline oneEmptyFileInput).currentGlobalOffset = 47 ∧
    (runPipeline oneEmptyFileInput).totalZipSizeForTorrent ≠
      (runPipeline oneEmptyFileInput).currentGlobalOffset := by decide

/-- C2 amended: A equals the bytes enqueued via `addDataToR2Stream`
(uploaded parts plus buffered bytes) and equals `totalZipSizeForTorrent`
throughout the per-file loop; after the loop, the flushed leftover is fed to
the hasher a second time and the zip tail is fed only to the hasher, so the
final `totalZipSizeForTorrent` exceeds A by leftover + tail, while the
stored archive is A + tail bytes long. -/
theorem c2_amended_offset_accounting (files : List FileInput) :
    (runCore files).1.totalZipSizeForTorrent
      = (runCore files).1.currentGlobalOffset
        + (runCore files).2.1.length + (runCore files).2.2.length ∧
    (archiveBytes (runCore files).1).length
      = (runCore files).1.currentGlobalOffset + (runCore files).2.2.length ∧
    (files.foldl processFile initState).totalZipSizeForTorrent
      = (files.foldl processFile initState).currentGlobalOffset := by
  obtain ⟨hparts, hoff, htot, hrem, h22⟩ := runCore_spec files
  have hloop := loopState_loopInv files
  refine ⟨?_, ?_, hloop.2⟩
  · rw [htot, hoff, hloop.2]
  · unfold archiveBytes
    rw [length_flatten_parts, hparts, partsLen_append]
    dsimp only
    rw [List.length_append, hrem, hoff]
    have hoffeq := hloop.1.2
    omega

/-- C3: the claim says the piece hashes are SHA-1 over contiguous windows of
the produced archive.  For the one-empty-file repository the archive is 120
bytes (a single window, so the claim forces `pieces = SHA-1(archive)`), but
the code hashed the 167-byte re-fed stream instead: the single piece hash
differs from the SHA-1 of the stored archive bytes. -/
theorem c3_pieces_hash_refed_stream :
    List.flatten (runPipeline oneEmptyFileInput).pieceHashes
      ≠ sha1Bytes (archiveBytes (runPipeline oneEmptyFileInput)) ∧
    (runPipeline oneEmptyFileInput).pieceHashes.length = 1 ∧
    (archiveBytes (runPipeline oneEmptyFileInput)).length = 120 := by decide

/-- C4: the claim says the torrent `info.length` equals the stored archive
object's byte length.  For the one-empty-file repository the code's strict
checks pass, yet `info.length` is 167 while the archive object (all uploaded
parts concatenated) is 120 bytes. -/
theorem c4_torrent_length_mismatch :
    (torrentInfoDict nmATxt (runPipeline oneEmptyFileInput)).length = 167 ∧
    (archiveBytes (runPipeline oneEmptyFileInput)).length = 120 ∧
    piecesCheckOk (runPipeline oneEmptyFileInput) = true := by decide

/-- C5: the claim says every fatal error leads to an abort attempt before
the error response.  The catch block guards the abort with
`if (mpu && !mpu.complete)`, but `complete` is the upload's method — a
function, hence truthy — so the guard is false and abort is never attempted
from the catch handler. -/
theorem c5_catch_block_never_aborts :
    catchBlockAttemptsAbort true mpuCompleteProp = false := by decide

/-- C6: the incremental CRC is chunking-independent: folding `crc32` over
any chunk list from state 0 equals one `crc32` pass over the concatenation,
and in particular crc32(b, crc32(a, 0)) = crc32(a ++ b, 0). -/
theorem c6_crc32_chunking_independent :
    (∀ chunks : List (List Nat),
      chunks.foldl (fun c chunk => crc32 chunk c) 0 = crc32 chunks.flatten 0) ∧
    (∀ a b : List Nat, crc32 b (crc32 a 0) = crc32 (a ++ b) 0) :=
  ⟨fun chunks => crc32_foldl_chunks chunks 0, fun a b => crc32_append 0 a b⟩

/-- C7 counterexample: the claim says every part, including the final one,
is at most the configured part size.  For a single file of 62914512 bytes
the loop leaves 62914559 buffered bytes (one below the 62914560 limit), and
the final part (leftover ++ 73-byte tail) is 62914632 bytes — above the
configured limit. -/
theorem c7_counterexample_oversized_final_part :
    ((runPipeline bigFileInput).uploadedParts.map (fun p => p.2.length)) = [62914632] ∧
    R2_PART_SIZE_LIMIT < 62914632 := by
  constructor
  · have h := oversize_general bigBody bigBody_length
    simpa only [bigFileInput] using h
  · norm_num [R2_PART_SIZE_LIMIT]

/-- C7 amended: the uploaded parts are numbered 1..N contiguously in upload
order and every part except the last is exactly the configured 60 MiB part
size (hence within bounds); the final part (leftover ++ central directory ++
EOCD) has no upper size bound. -/
theorem c7_amended_part_structure (files : List FileInput) :
    (runPipeline files).uploadedParts.map Prod.fst
      = List.range' 1 (runPipeline files).uploadedParts.length ∧
    ∀ p ∈ (runPipeline files).uploadedParts.dropLast,
      p.2.length = R2_PART_SIZE_LIMIT := by
  obtain ⟨hparts, hoff, htot, hrem, h22⟩ := runCore_spec files
  obtain ⟨⟨hidx, hnum, hsz, hbuf⟩, hoffeq⟩ := (loopState_loopInv files).1
  dsimp only at hidx hnum hsz hbuf
  unfold runPipeline
  rw [hparts]
  constructor
  · rw [List.map_append, hnum]
    simp only [List.map_cons, List.map_nil, List.length_append, List.length_cons,
      List.length_nil, hidx]
    rw [List.range'_concat]
    norm_num
    omega
  · rw [List.dropLast_concat]
    exact hsz

/-- C8 counterexample: for the one-empty-file repository the torrent's
single piece hash is not the SHA-1 of an empty input
(da39a3ee5e6b4b0d3255bfef95601890afd80709). -/
theorem c8_counterexample_not_empty_hash :
    (runPipeline oneEmptyFileInput).pieceHashes ≠ [sha1EmptyDigest] := by decide

/-- C8 amended: for the one-empty-file repository the stored archive is
local header ++ data descriptor (CRC 0, sizes 0) ++ one central-directory
entry ++ EOCD with count 1, and the torrent's `pieces` is one 20-byte SHA-1
digest — of the bytes fed to the hasher (the 47 pre-tail archive bytes,
those same 47 bytes again from the post-flush re-feed, then the 73-byte
tail), not of an empty input. -/
theorem c8_amended_one_empty_file :
    archiveBytes (runPipeline oneEmptyFileInput)
      = makeLocalHeader nmATxt ++ makeDataDescriptor 0 0 ++
        makeCentralDirectoryEntryBytes nmATxt 0 0 0 0 [] ++ makeEOCDBytes 51 47 1 [] ∧
    (runPipeline oneEmptyFileInput).pieceHashes
      = [sha1Bytes ((makeLocalHeader nmATxt ++ makeDataDescriptor 0 0) ++
          ((makeLocalHeader nmATxt ++ makeDataDescriptor 0 0) ++
           (makeCentralDirectoryEntryBytes nmATxt 0 0 0 0 [] ++
            makeEOCDBytes 51 47 1 [])))] := by decide

/-- C9: feeding an empty chunk to either half of the tee is a no-op: the
whole state, every component included, is returned unchanged. -/
theorem c9_empty_chunk_noop (s : PipeState) :
    addDataToR2Stream [] s = s ∧ feedDataToTorrentHasher [] s = s := by
  refine ⟨?_, ?_⟩
  · unfold addDataToR2Stream
    rw [if_pos rfl]
  · unfold feedDataToTorrentHasher
    rw [if_pos rfl]

/-- C10: a repo parameter whose split on the separator yields at least two
segments is accepted; the owner is the first segment, the name is the
remaining segments re-joined with the separator, and the two object keys
are owner/name.zip and owner/name.torrent. -/
theorem c10_repo_key_derivation (repoParam : List Nat)
    (h : 2 ≤ (splitOnByte 47 repoParam).length) :
    handleRepoParam repoParam = Except.ok
      (((splitOnByte 47 repoParam).headD []) ++ [47] ++
        ((splitOnByte 47 repoParam).tail.intersperse [47]).flatten ++
        [46, 122, 105, 112],
       ((splitOnByte 47 repoParam).headD []) ++ [47] ++
        ((splitOnByte 47 repoParam).tail.intersperse [47]).flatten ++
        [46, 116, 111, 114, 114, 101, 110, 116]) := by
  unfold handleRepoParam
  rw [if_neg (by omega)]

/-- C10 witness: the parameter "a/b/c" (two separators) is accepted and
produces the keys "a/b/c.zip" and "a/b/c.torrent". -/
theorem c10_witness :
    2 ≤ (splitOnByte 47 [97, 47, 98, 47, 99]).length ∧
    handleRepoParam [97, 47, 98, 47, 99] = Except.ok
      ([97, 47, 98, 47, 99, 46, 122, 105, 112],
       [97, 47, 98, 47, 99, 46, 116, 111, 114, 114, 101, 110, 116]) := by
  refine ⟨by decide, ?_⟩
  rw [c10_repo_key_derivation [97, 47, 98, 47, 99] (by decide)]
  simp only [Except.ok.injEq, Prod.mk.injEq]
  exact ⟨by decide, by decide⟩
